import Mathlib

/-!
Shallow embedding of the refresh-token rotation / password-reset core of the
authentication service.

Sources embedded here:
* `src/src/repositories/user-repository.ts` (`RefreshTokenRepositoryImpl`):
  the refresh-token store operations `create`, `findByTokenHash`, `revoke`,
  `revokeAllForUser`, `revokeAllByFamilyId`, modelled over a list of records
  standing for the `refreshToken` table.
* `src/src/services/session-service.ts` (`SessionServiceImpl`):
  `createSession`, `rotateSession`, `revokeSession`.
* `src/src/repositories/password-reset-token-repository.ts`
  (`PasswordResetTokenRepositoryImpl`): `create`, `findValidByTokenHash`,
  `markAsUsed`, `invalidateAllForUser`.
* `src/unnamed/part_011` (`PasswordServiceImpl`): `requestPasswordReset`,
  `resetPassword`.
* `src/src/services/mail-service.ts` (`PasswordManagerServiceImpl`):
  `toHash`, `compare` (scrypt-based password hashing), embedded over
  character lists so that the `salt.derivedKeyHex` split is modelled exactly.

Modelling conventions:
* Time (`Date.now()`, the `new Date()` comparisons) is an explicit `now : Nat`
  parameter, milliseconds since epoch.
* Opaque identifiers (user ids, emails, family ids) are `Nat`.
* The external SHA-256 digest used as the storage key for refresh and reset
  tokens is idealised as an injective encoding (`Nat.pair`); the external
  scrypt KDF of the password hasher is kept abstract (a function parameter)
  since it is a library collaborator, not repository code.
* Randomness (UUID family ids, fresh `jti` values, random reset tokens,
  database-generated row ids) is supplied by the caller as explicit
  parameters, as is standard for a pure embedding of an effectful service.
* Collaborator failure (the backing store or the mail dispatcher rejecting a
  promise) is modelled by explicit Boolean fault flags: a flagged call throws
  at its program point, performing no mutation of its own, and the
  surrounding control flow (try/catch or propagation) is translated from the
  source.
-/

/-- A row of the `refreshToken` table
(`RefreshTokenRecord` of the spec; Prisma model used by
`RefreshTokenRepositoryImpl`). -/
structure RefreshTokenRecord where
  id : Nat
  tokenHash : Nat
  userId : Nat
  familyId : Nat
  expiresAt : Nat
  createdAt : Nat
  revokedAt : Option Nat
deriving DecidableEq, Repr

/-- Embeds `RefreshTokenRepositoryImpl.findByTokenHash`: `findUnique` on the unique
`tokenHash` column, modelled as first match in the table. -/
def findByTokenHash (store : List RefreshTokenRecord) (h : Nat) :
    Option RefreshTokenRecord :=
  store.find? (fun r => r.tokenHash == h)

/-- Embeds `RefreshTokenRepositoryImpl.create`: inserts a fresh row with
`revokedAt` null; the database-generated row id is supplied as `rid`. -/
def createRecord (store : List RefreshTokenRecord)
    (rid userId tokenHash familyId expiresAt now : Nat) :
    List RefreshTokenRecord :=
  store ++ [⟨rid, tokenHash, userId, familyId, expiresAt, now, none⟩]

/-- Embeds `RefreshTokenRepositoryImpl.revoke`: `update where tokenHash` setting
`revokedAt` to the current time.  The update is unconditional — it does not
filter on `revokedAt: null`, so an already-set `revokedAt` is overwritten. -/
def revokeTok (store : List RefreshTokenRecord) (h now : Nat) :
    List RefreshTokenRecord :=
  store.map (fun r =>
    if r.tokenHash == h then { r with revokedAt := some now } else r)

/-- Embeds `RefreshTokenRepositoryImpl.revokeAllForUser`: `updateMany` over the rows
with this `userId` and `revokedAt: null`. -/
def revokeAllForUser (store : List RefreshTokenRecord) (uid now : Nat) :
    List RefreshTokenRecord :=
  store.map (fun r =>
    if r.userId == uid && r.revokedAt.isNone then
      { r with revokedAt := some now } else r)

/-- Embeds `RefreshTokenRepositoryImpl.revokeAllByFamilyId`: `updateMany` over the
rows with this `familyId` and `revokedAt: null`; returns the updated table
together with the affected-row count. -/
def revokeAllByFamilyId (store : List RefreshTokenRecord) (fid now : Nat) :
    List RefreshTokenRecord × Nat :=
  (store.map (fun r =>
      if r.familyId == fid && r.revokedAt.isNone then
        { r with revokedAt := some now } else r),
   (store.filter (fun r => r.familyId == fid && r.revokedAt.isNone)).length)

/-- A raw refresh-token JWT as minted by `TokenServiceImpl.generateTokens`:
subject, email, fresh `jti`, embedded expiry, and whether its signature
verifies under the server's refresh secret. -/
structure RawRefreshToken where
  sub : Nat
  email : Nat
  jti : Nat
  exp : Nat
  sigOk : Bool
deriving DecidableEq, Repr

/-- Embeds `TokenServiceImpl.hashToken`: the SHA-256 digest of the raw token string,
idealised as an injective encoding of the token's content. -/
def hashTok (t : RawRefreshToken) : Nat :=
  Nat.pair t.sub (Nat.pair t.email (Nat.pair t.jti
    (Nat.pair t.exp (cond t.sigOk 1 0))))

/-- Embeds `TokenServiceImpl.verifyRefreshToken`: `jwt.verify` checks the signature
and the embedded expiry, returning the payload (`sub`, `email`) on success
and throwing otherwise (modelled as `none`). -/
def verifyRefreshToken (t : RawRefreshToken) (now : Nat) :
    Option (Nat × Nat) :=
  if t.sigOk = true ∧ now < t.exp then some (t.sub, t.email) else none

/-- The refresh token minted by `TokenServiceImpl.generateTokens` for a user:
payload `sub`/`email`, fresh `jti`, expiry `now` plus the configured refresh
lifetime, validly signed. -/
def generateRefreshToken (sub email jti now cfgRefreshMs : Nat) :
    RawRefreshToken :=
  ⟨sub, email, jti, now + cfgRefreshMs, true⟩

/-- Outcome of `SessionServiceImpl.rotateSession`: either an
`UnauthorizedHttpResponse` with its response-body message, or a successful
rotation carrying the new raw token and the identity/family data returned to
the caller. -/
inductive RotateOutcome where
  | unauthorized (message : String)
  | rotated (newRefreshToken : RawRefreshToken) (userId email familyId : Nat)
deriving DecidableEq, Repr

/-- The generic rotation-failure message of
`SessionServiceImpl.rotateSession`. -/
def invalidTokenMsg : String := "Invalid or expired refresh token"

/-- The message thrown by the expired-record branch of
`SessionServiceImpl.rotateSession`. -/
def expiredTokenMsg : String := "Refresh token has expired"

/-- Result of one `rotateSession` call: the outcome and the refresh-token
table after the call. -/
structure RotateStep where
  outcome : RotateOutcome
  store : List RefreshTokenRecord
deriving DecidableEq, Repr

/-- Embeds `SessionServiceImpl.rotateSession`, translated branch for branch:
1. verify the JWT (failure: generic Unauthorized);
2. hash and look up the record (absence: generic Unauthorized);
3. reuse detection: record already revoked revokes the whole family and
   returns the generic Unauthorized;
4. record past `expiresAt`: Unauthorized with the distinct expired message;
5. otherwise revoke the presented token, mint a replacement carrying the
   same `familyId`, persist it with a fresh full expiry window.
`newJti` is the fresh `jti` of the minted token and `rid` the
database-generated id of the inserted row. -/
def rotateSession (cfg : Nat) (store : List RefreshTokenRecord)
    (t : RawRefreshToken) (newJti rid now : Nat) : RotateStep :=
  match verifyRefreshToken t now with
  | none => ⟨.unauthorized invalidTokenMsg, store⟩
  | some (sub, email) =>
    match findByTokenHash store (hashTok t) with
    | none => ⟨.unauthorized invalidTokenMsg, store⟩
    | some stored =>
      if stored.revokedAt.isSome then
        ⟨.unauthorized invalidTokenMsg,
         (revokeAllByFamilyId store stored.familyId now).1⟩
      else if stored.expiresAt < now then
        ⟨.unauthorized expiredTokenMsg, store⟩
      else
        let s1 := revokeTok store (hashTok t) now
        let newTok := generateRefreshToken sub email newJti now cfg
        ⟨.rotated newTok sub email stored.familyId,
         createRecord s1 rid sub (hashTok newTok) stored.familyId
           (now + cfg) now⟩

/-- Result of `SessionServiceImpl.createSession`: the raw refresh token and
fresh family id returned to the caller, plus the table after the insert. -/
structure CreateStep where
  refreshToken : RawRefreshToken
  familyId : Nat
  store : List RefreshTokenRecord
deriving DecidableEq, Repr

/-- Embeds `SessionServiceImpl.createSession`: mint a refresh token, pick a fresh
`familyId` (the `randomUUID()` value, supplied as a parameter), and persist
the hash with expiry `now` plus the configured refresh lifetime. -/
def createSession (cfg : Nat) (store : List RefreshTokenRecord)
    (userId email jti familyId rid now : Nat) : CreateStep :=
  let t := generateRefreshToken userId email jti now cfg
  ⟨t, familyId,
   createRecord store rid userId (hashTok t) familyId (now + cfg) now⟩

/-- Embeds `SessionServiceImpl.revokeSession`: hash-lookup; revoke only when the
record exists, its `userId` matches the authenticated caller and `revokedAt`
is unset; anything else is a silent no-op.  Note the condition does not test
`expiresAt`. -/
def revokeSession (store : List RefreshTokenRecord) (userId : Nat)
    (t : RawRefreshToken) (now : Nat) : List RefreshTokenRecord :=
  match findByTokenHash store (hashTok t) with
  | some stored =>
    if stored.userId == userId && stored.revokedAt.isNone then
      revokeTok store (hashTok t) now
    else store
  | none => store

deriving instance DecidableEq for Except

/-- A row of the `passwordResetToken` table (`PasswordResetTokenRecord` of
the spec; Prisma model used by `PasswordResetTokenRepositoryImpl`). -/
structure PasswordResetTokenRecord where
  id : Nat
  tokenHash : Nat
  userId : Nat
  expiresAt : Nat
  createdAt : Nat
  usedAt : Option Nat
deriving DecidableEq, Repr

/-- Embeds `PasswordResetTokenRepositoryImpl.findValidByTokenHash`: `findFirst`
over records matching the hash that are simultaneously unexpired
(`expiresAt` strictly in the future) and unused (`usedAt` null). -/
def findValidByTokenHash (toks : List PasswordResetTokenRecord)
    (h now : Nat) : Option PasswordResetTokenRecord :=
  toks.find? (fun r =>
    r.tokenHash == h && decide (now < r.expiresAt) && r.usedAt.isNone)

/-- Embeds `PasswordResetTokenRepositoryImpl.markAsUsed`: `update where id` setting
`usedAt` to the current time. -/
def markAsUsed (toks : List PasswordResetTokenRecord) (rid now : Nat) :
    List PasswordResetTokenRecord :=
  toks.map (fun r => if r.id == rid then { r with usedAt := some now } else r)

/-- Embeds `PasswordResetTokenRepositoryImpl.invalidateAllForUser`: `updateMany`
over the user's unused, unexpired reset tokens, setting `usedAt`; returns
the updated table and the affected-row count. -/
def invalidateAllForUser (toks : List PasswordResetTokenRecord)
    (uid now : Nat) : List PasswordResetTokenRecord × Nat :=
  (toks.map (fun r =>
      if r.userId == uid && r.usedAt.isNone && decide (now < r.expiresAt) then
        { r with usedAt := some now } else r),
   (toks.filter (fun r =>
      r.userId == uid && r.usedAt.isNone &&
        decide (now < r.expiresAt))).length)

/-- Embeds `crypto.createHash` SHA-256 of a raw reset token (`hashToken` in
`src/unnamed/part_011`), idealised as an injective encoding. -/
def hashResetToken (raw : Nat) : Nat := Nat.pair 1 raw

/-- A user row together with its username-password identity's hash (the
`user` + `userIdentity` tables as consumed by `PasswordServiceImpl` through
`UserRepositoryImpl.findByEmail` / `findById` / `updatePasswordHash`). -/
structure UserRecord where
  id : Nat
  email : Nat
  passwordHash : Nat
deriving DecidableEq, Repr

/-- The persistent state and outbound-mail trace visible to
`PasswordServiceImpl`: the user table, the two token tables, the reset links
dispatched (`sendPasswordResetEmail`, recorded as address with the raw token
embedded in the link) and the confirmation mails sent
(`sendPasswordResetConfirmation`, recorded as address). -/
structure ResetWorld where
  users : List UserRecord
  resetTokens : List PasswordResetTokenRecord
  refreshTokens : List RefreshTokenRecord
  sentResetMails : List (Nat × Nat)
  sentConfirmations : List Nat
deriving DecidableEq, Repr

/-- Embeds `PASSWORD_RESET_TOKEN_EXPIRES_IN_MS` of `src/unnamed/part_011`. -/
def passwordResetTokenExpiresInMs : Nat := 15 * 60 * 1000

/-- Embeds `PASSWORD_RESET_RESPONSE_MESSAGE` of `src/unnamed/part_011`. -/
def resetRequestMsg : String :=
  "If that email address is in our database, we will send you an email to reset your password."

/-- The message of the Error thrown by `PasswordServiceImpl.resetPassword`
for an invalid, expired, used or dangling reset token. -/
def invalidResetMsg : String := "Invalid or expired reset token"

/-- The success message of `PasswordServiceImpl.resetPassword`. -/
def resetOkMsg : String := "Password has been reset successfully"

/-- Fault flags for the collaborator calls inside
`PasswordServiceImpl.requestPasswordReset`: when set, the corresponding
store or mail call rejects at its program point. -/
structure RequestFaults where
  findUser : Bool
  invalidate : Bool
  createTok : Bool
  sendMail : Bool
deriving DecidableEq, Repr

/-- The all-clear fault assignment for `requestPasswordReset`. -/
def noRequestFaults : RequestFaults := ⟨false, false, false, false⟩

/-- Embeds `PasswordServiceImpl.requestPasswordReset`, translated step for step.
The whole lookup/mutation/mail sequence runs inside a try whose catch only
logs, and the constant response message is returned outside it, so every
path — matching user, unknown email, or a collaborator failure anywhere —
falls through to the same `resetRequestMsg`.  `rawTok` is the freshly
generated random token and `rid` the database-generated row id; the
timing-normalisation sleep has no effect on state or response and is not
modelled. -/
def requestPasswordReset (w : ResetWorld) (email rawTok rid now : Nat)
    (f : RequestFaults) : String × ResetWorld :=
  if f.findUser then (resetRequestMsg, w)
  else
    match w.users.find? (fun u => u.email == email) with
    | none => (resetRequestMsg, w)
    | some user =>
      if f.invalidate then (resetRequestMsg, w)
      else
        let w1 := { w with
          resetTokens := (invalidateAllForUser w.resetTokens user.id now).1 }
        if f.createTok then (resetRequestMsg, w1)
        else
          let w2 := { w1 with
            resetTokens := w1.resetTokens ++
              [⟨rid, hashResetToken rawTok, user.id,
                now + passwordResetTokenExpiresInMs, now, none⟩] }
          if f.sendMail then (resetRequestMsg, w2)
          else
            (resetRequestMsg,
             { w2 with sentResetMails := w2.sentResetMails ++ [(email, rawTok)] })

/-- Fault flags for the collaborator calls inside
`PasswordServiceImpl.resetPassword`: when set, the corresponding store or
mail call rejects at its program point and the error propagates to the
caller (there is no catch in this flow). -/
structure ResetFaults where
  updatePw : Bool
  markUsed : Bool
  revokeAll : Bool
  confirmMail : Bool
deriving DecidableEq, Repr

/-- The all-clear fault assignment for `resetPassword`. -/
def noResetFaults : ResetFaults := ⟨false, false, false, false⟩

/-- Embeds `PasswordServiceImpl.resetPassword`, translated step for step: hash the
presented token; look up a simultaneously unexpired and unused record
(absence throws the generic reset failure); look up the owning user (absence
throws the same failure); then sequentially update the password hash, mark
the reset token used, revoke all of the user's refresh tokens, and send the
confirmation mail.  The five effects are plain sequential awaits with no
transaction, so a collaborator failure leaves the mutations already
performed in place and propagates.  `newHash` is the scrypt hash of the new
password (fresh salt supplied by the hasher). -/
def resetPassword (w : ResetWorld) (rawTok newHash now : Nat)
    (f : ResetFaults) : Except String String × ResetWorld :=
  match findValidByTokenHash w.resetTokens (hashResetToken rawTok) now with
  | none => (.error invalidResetMsg, w)
  | some resetTok =>
    match w.users.find? (fun u => u.id == resetTok.userId) with
    | none => (.error invalidResetMsg, w)
    | some user =>
      if f.updatePw then (.error "store failure", w)
      else
        let w1 := { w with
          users := w.users.map (fun u =>
            if u.id == user.id then { u with passwordHash := newHash } else u) }
        if f.markUsed then (.error "store failure", w1)
        else
          let w2 := { w1 with
            resetTokens := markAsUsed w1.resetTokens resetTok.id now }
          if f.revokeAll then (.error "store failure", w2)
          else
            let w3 := { w2 with
              refreshTokens := revokeAllForUser w2.refreshTokens user.id now }
            if f.confirmMail then (.error "mail failure", w3)
            else
              (.ok resetOkMsg,
               { w3 with
                 sentConfirmations := w3.sentConfirmations ++ [user.email] })

/-- The JavaScript `String.prototype.split('.')` over a character list:
splits at every dot, preserving empty segments
(so the result is always non-empty). -/
def splitOnDot : List Char → List (List Char)
  | [] => [[]]
  | c :: cs =>
    if c = '.' then [] :: splitOnDot cs
    else
      match splitOnDot cs with
      | hd :: tl => (c :: hd) :: tl
      | [] => [[c]]

/-- Embeds `PasswordManagerServiceImpl.toHash`: a fresh random salt (hex of 32
random bytes, supplied by the caller) is joined with the scrypt-derived key
of the password as `salt.derivedKeyHex`.  The external scrypt KDF is the
`kdf` parameter. -/
def toHashPw (kdf : List Char → List Char → List Char)
    (password salt : List Char) : List Char :=
  salt ++ '.' :: kdf password salt

/-- Embeds `PasswordManagerServiceImpl.compare`: destructure the stored string at
its dots into `[salt, hash]` (as the JavaScript destructuring of
`split('.')`, extra segments ignored), recompute the derived key of the
supplied password under the embedded salt, and compare digests.  A stored
value with no separator yields `false` (the `undefined === string`
comparison of the source). -/
def comparePw (kdf : List Char → List Char → List Char)
    (stored supplied : List Char) : Bool :=
  match splitOnDot stored with
  | salt :: h :: _ => h == kdf supplied salt
  | _ => false

example :
    (rotateSession 100 [⟨0, hashTok ⟨1, 2, 3, 50, true⟩, 1, 7, 50, 0, none⟩]
      ⟨1, 2, 3, 50, true⟩ 4 1 10).outcome
      = .rotated ⟨1, 2, 4, 110, true⟩ 1 2 7 := by decide

example :
    (rotateSession 100 [⟨0, hashTok ⟨1, 2, 3, 50, true⟩, 1, 7, 50, 0, some 5⟩]
      ⟨1, 2, 3, 50, true⟩ 4 1 10).outcome
      = .unauthorized invalidTokenMsg := by decide

example :
    (resetPassword
      ⟨[⟨1, 10, 99⟩], [⟨0, hashResetToken 5, 1, 1000, 0, none⟩], [], [], []⟩
      5 42 10 noResetFaults).1 = .ok resetOkMsg := by decide

example :
    (requestPasswordReset ⟨[⟨1, 10, 99⟩], [], [], [], []⟩ 10 5 0 3
      noRequestFaults).2.sentResetMails = [(10, 5)] := by decide

example :
    comparePw (fun p s => p ++ s)
      (toHashPw (fun p s => p ++ s) ['a'] ['s']) ['a'] = true := by decide

lemma splitOnDot_no_dot (l : List Char) (h : '.' ∉ l) : splitOnDot l = [l] := by
  induction l with
  | nil => rfl
  | cons c cs ih =>
    have hc : ¬ c = '.' := fun hc => h (hc ▸ List.mem_cons_self c cs)
    have hcs : '.' ∉ cs := fun hm => h (List.mem_cons_of_mem c hm)
    simp [splitOnDot, hc, ih hcs]

lemma splitOnDot_append (salt rest : List Char) (h : '.' ∉ salt) :
    splitOnDot (salt ++ '.' :: rest) = salt :: splitOnDot rest := by
  induction salt with
  | nil => simp [splitOnDot]
  | cons c cs ih =>
    have hc : ¬ c = '.' := fun hc => h (hc ▸ List.mem_cons_self c cs)
    have hcs : '.' ∉ cs := fun hm => h (List.mem_cons_of_mem c hm)
    simp [splitOnDot, hc, ih hcs]

/-- C9: credential hash round-trip for `PasswordManagerServiceImpl`:
comparing a freshly produced hash against the original password succeeds;
against a password whose derived key differs it fails; and hashing the same
password under two distinct fresh salts yields distinct stored strings.
The external scrypt KDF is abstract; the collision-freedom hypothesis
`hcoll` is the idealisation of the spec's `p ≠ p2` case, and the no-dot
hypotheses hold of the hex-encoded salts and digests of the source. -/
theorem credential_hash_roundtrip
    (kdf : List Char → List Char → List Char) (p p2 salt salt2 : List Char)
    (hsalt : '.' ∉ salt) (hsalt2 : '.' ∉ salt2)
    (hkdf : '.' ∉ kdf p salt)
    (hcoll : kdf p salt ≠ kdf p2 salt)
    (hsalts : salt ≠ salt2) :
    comparePw kdf (toHashPw kdf p salt) p = true ∧
    comparePw kdf (toHashPw kdf p salt) p2 = false ∧
    toHashPw kdf p salt ≠ toHashPw kdf p salt2 := by
  have hsplit : splitOnDot (toHashPw kdf p salt) = [salt, kdf p salt] := by
    rw [toHashPw, splitOnDot_append _ _ hsalt, splitOnDot_no_dot _ hkdf]
  refine ⟨?_, ?_, ?_⟩
  · simp [comparePw, hsplit]
  · simp only [comparePw, hsplit]
    exact beq_eq_false_iff_ne.mpr hcoll
  · intro heq
    have h1 := congrArg splitOnDot heq
    rw [toHashPw, toHashPw, splitOnDot_append _ _ hsalt,
      splitOnDot_append _ _ hsalt2] at h1
    injection h1 with h1h _
    exact hsalts h1h

/-- Witness for C9 at a concrete KDF, passwords and salts. -/
theorem credential_hash_roundtrip_witness :
    ('.' ∉ (['s'] : List Char) ∧ '.' ∉ (['t'] : List Char) ∧
      '.' ∉ (fun p s => p ++ s) ['a'] ['s'] ∧
      (fun p s => p ++ s) ['a'] ['s'] ≠ (fun p s => p ++ s) ['b'] ['s'] ∧
      (['s'] : List Char) ≠ ['t']) ∧
    comparePw (fun p s => p ++ s)
      (toHashPw (fun p s => p ++ s) ['a'] ['s']) ['a'] = true ∧
    comparePw (fun p s => p ++ s)
      (toHashPw (fun p s => p ++ s) ['a'] ['s']) ['b'] = false ∧
    toHashPw (fun p s => p ++ s) ['a'] ['s']
      ≠ toHashPw (fun p s => p ++ s) ['a'] ['t'] :=
  ⟨by decide,
   credential_hash_roundtrip (fun p s => p ++ s) ['a'] ['b'] ['s'] ['t']
     (by decide) (by decide) (by decide) (by decide) (by decide)⟩

lemma forall₂_map_self {α : Type} (f : α → α) (R : α → α → Prop)
    (l : List α) (h : ∀ x ∈ l, R x (f x)) : List.Forall₂ R l (l.map f) :=
  List.forall₂_map_right_iff.mpr (List.forall₂_same.mpr h)

lemma revokeTok_char (s : List RefreshTokenRecord) (h now : Nat) :
    List.Forall₂ (fun r r' =>
      (r.tokenHash = h → r'.revokedAt = some now) ∧
      (r.tokenHash ≠ h → r' = r) ∧
      (r.revokedAt.isSome = true → r'.revokedAt.isSome = true))
      s (revokeTok s h now) := by
  apply forall₂_map_self
  intro r _
  by_cases hth : r.tokenHash = h
  · simp [hth]
  · simp [hth]

lemma revokeBulk_char (s : List RefreshTokenRecord)
    (cond : RefreshTokenRecord → Bool) (now : Nat) :
    List.Forall₂ (fun r r' =>
      (r.revokedAt.isSome = true → r' = r) ∧
      (r.revokedAt = none → r' = r ∨ r'.revokedAt = some now))
      s (s.map (fun r =>
        if cond r && r.revokedAt.isNone then
          { r with revokedAt := some now } else r)) := by
  apply forall₂_map_self
  intro r _
  by_cases hc : (cond r && r.revokedAt.isNone) = true
  · refine ⟨fun hs => ?_, fun _ => ?_⟩
    · rw [Bool.and_eq_true] at hc
      rw [Option.isNone_iff_eq_none.mp hc.2] at hs
      cases hs
    · simp [hc]
  · simp [hc]

/-- C3 (amended): `revoke` sets `revokedAt` to the current time on the
matching record unconditionally — overwriting an already-set `revokedAt`
rather than leaving it, so only the revoked *status* is monotonic; the bulk
operations `revokeAllForUser` and `revokeAllByFamilyId` filter on
`revokedAt: null` and never touch an already-revoked record; and no
operation ever returns a set `revokedAt` to null. -/
theorem revocation_monotonic (s : List RefreshTokenRecord)
    (h uid fid now : Nat) :
    List.Forall₂ (fun r r' =>
      (r.tokenHash = h → r'.revokedAt = some now) ∧
      (r.tokenHash ≠ h → r' = r) ∧
      (r.revokedAt.isSome = true → r'.revokedAt.isSome = true))
      s (revokeTok s h now) ∧
    List.Forall₂ (fun r r' =>
      (r.revokedAt.isSome = true → r' = r) ∧
      (r.revokedAt = none → r' = r ∨ r'.revokedAt = some now))
      s (revokeAllForUser s uid now) ∧
    List.Forall₂ (fun r r' =>
      (r.revokedAt.isSome = true → r' = r) ∧
      (r.revokedAt = none → r' = r ∨ r'.revokedAt = some now))
      s ((revokeAllByFamilyId s fid now).1) :=
  ⟨revokeTok_char s h now,
   revokeBulk_char s (fun r => r.userId == uid) now,
   revokeBulk_char s (fun r => r.familyId == fid) now⟩

/-- Counterexample to C3 as stated: `revoke` on a record whose `revokedAt`
is already set changes it to the new current time. -/
theorem revoke_overwrites_cex :
    revokeTok [⟨0, 5, 1, 2, 100, 0, some 1⟩] 5 2
      = [⟨0, 5, 1, 2, 100, 0, some 2⟩] ∧ (some 2 : Option Nat) ≠ some 1 := by
  decide

/-- C8 (amended): `revokeSession` revokes the matching record exactly when
it exists, is owned by the authenticated caller and has `revokedAt` unset —
the code does not test `expiresAt`, so an expired but unrevoked owned record
is also revoked; in the remaining cases (unknown hash, mismatched owner,
already revoked) the store is returned unchanged and the call completes
without error. -/
theorem revokeSession_ownership_spec (store : List RefreshTokenRecord)
    (uid : Nat) (t : RawRefreshToken) (now : Nat) :
    (findByTokenHash store (hashTok t) = none →
      revokeSession store uid t now = store) ∧
    (∀ rec, findByTokenHash store (hashTok t) = some rec →
      (¬ (rec.userId = uid ∧ rec.revokedAt = none) →
        revokeSession store uid t now = store) ∧
      (rec.userId = uid → rec.revokedAt = none →
        List.Forall₂ (fun r r' =>
            (r.tokenHash = hashTok t → r'.revokedAt = some now) ∧
            (r.tokenHash ≠ hashTok t → r' = r))
          store (revokeSession store uid t now))) := by
  constructor
  · intro hf
    simp [revokeSession, hf]
  · intro rec hf
    constructor
    · intro hno
      have hc : ¬ ((rec.userId == uid && rec.revokedAt.isNone) = true) := by
        simpa [Option.isNone_iff_eq_none] using hno
      simp [revokeSession, hf, hc]
    · intro hu hr
      have hc : (rec.userId == uid && rec.revokedAt.isNone) = true := by
        simp [hu, hr]
      simp only [revokeSession, hf, hc, if_true]
      exact (revokeTok_char store (hashTok t) now).imp
        (fun a b hab => ⟨hab.1, hab.2.1⟩)

/-- Witness for C8 at a concrete store: a mismatched-owner presentation is a
silent no-op. -/
theorem revokeSession_ownership_spec_witness :
    revokeSession [⟨0, hashTok ⟨1, 0, 0, 50, true⟩, 7, 2, 100, 0, none⟩] 8
        ⟨1, 0, 0, 50, true⟩ 10
      = [⟨0, hashTok ⟨1, 0, 0, 50, true⟩, 7, 2, 100, 0, none⟩] :=
  ((revokeSession_ownership_spec _ 8 ⟨1, 0, 0, 50, true⟩ 10).2
      ⟨0, hashTok ⟨1, 0, 0, 50, true⟩, 7, 2, 100, 0, none⟩ (by decide)).1
    (by decide)

lemma verifyRefreshToken_some_inv (t : RawRefreshToken) (now : Nat)
    (p : Nat × Nat) (h : verifyRefreshToken t now = some p) :
    p = (t.sub, t.email) ∧ t.sigOk = true ∧ now < t.exp := by
  unfold verifyRefreshToken at h
  split at h
  next hcond => exact ⟨(Option.some.inj h).symm, hcond.1, hcond.2⟩
  next => cases h

lemma rotate_revoked_eq (cfg : Nat) (store : List RefreshTokenRecord)
    (t : RawRefreshToken) (newJti rid now : Nat) (p : Nat × Nat)
    (rec : RefreshTokenRecord)
    (hv : verifyRefreshToken t now = some p)
    (hf : findByTokenHash store (hashTok t) = some rec)
    (hrev : rec.revokedAt.isSome = true) :
    rotateSession cfg store t newJti rid now =
      ⟨.unauthorized invalidTokenMsg,
       (revokeAllByFamilyId store rec.familyId now).1⟩ := by
  obtain ⟨hp, _, _⟩ := verifyRefreshToken_some_inv t now p hv
  subst hp
  simp [rotateSession, hv, hf, hrev]

lemma revokeAllByFamilyId_complete (s : List RefreshTokenRecord)
    (fid now : Nat) :
    ∀ r ∈ (revokeAllByFamilyId s fid now).1,
      r.familyId = fid → r.revokedAt.isSome = true := by
  intro r' hr' hfid
  simp only [revokeAllByFamilyId, List.mem_map] at hr'
  obtain ⟨r, _, hmap⟩ := hr'
  by_cases hc : (r.familyId == fid && r.revokedAt.isNone) = true
  · rw [if_pos hc] at hmap
    rw [← hmap]
    rfl
  · rw [if_neg hc] at hmap
    subst hmap
    cases o : r.revokedAt with
    | none => exact absurd (by simp [hfid, o]) hc
    | some v => simp [o]

lemma rotate_live_eq (cfg : Nat) (store : List RefreshTokenRecord)
    (t : RawRefreshToken) (newJti rid now : Nat) (p : Nat × Nat)
    (stored : RefreshTokenRecord)
    (hv : verifyRefreshToken t now = some p)
    (hf : findByTokenHash store (hashTok t) = some stored)
    (hr : ¬ stored.revokedAt.isSome = true)
    (he : ¬ stored.expiresAt < now) :
    rotateSession cfg store t newJti rid now =
      ⟨.rotated (generateRefreshToken t.sub t.email newJti now cfg)
          t.sub t.email stored.familyId,
       createRecord (revokeTok store (hashTok t) now) rid t.sub
         (hashTok (generateRefreshToken t.sub t.email newJti now cfg))
         stored.familyId (now + cfg) now⟩ := by
  obtain ⟨hp, _, _⟩ := verifyRefreshToken_some_inv t now p hv
  subst hp
  simp [rotateSession, hv, hf, hr, he]

lemma rotate_success_inv (cfg : Nat) (store : List RefreshTokenRecord)
    (t : RawRefreshToken) (newJti rid now : Nat) (nt : RawRefreshToken)
    (u e fid : Nat)
    (hrot : (rotateSession cfg store t newJti rid now).outcome
      = .rotated nt u e fid) :
    ∃ rec, verifyRefreshToken t now = some (t.sub, t.email) ∧
      findByTokenHash store (hashTok t) = some rec ∧
      rec.revokedAt = none ∧ ¬ rec.expiresAt < now ∧
      nt = generateRefreshToken t.sub t.email newJti now cfg ∧
      u = t.sub ∧ e = t.email ∧ fid = rec.familyId ∧
      (rotateSession cfg store t newJti rid now).store =
        createRecord (revokeTok store (hashTok t) now) rid t.sub (hashTok nt)
          rec.familyId (now + cfg) now := by
  cases hv : verifyRefreshToken t now with
  | none => simp [rotateSession, hv] at hrot
  | some p =>
    have hp := (verifyRefreshToken_some_inv t now p hv).1
    subst hp
    cases hf : findByTokenHash store (hashTok t) with
    | none => simp [rotateSession, hv, hf] at hrot
    | some stored =>
      by_cases hr : stored.revokedAt.isSome = true
      · simp [rotateSession, hv, hf, hr] at hrot
      · by_cases he : stored.expiresAt < now
        · simp [rotateSession, hv, hf, hr, he] at hrot
        · rw [rotate_live_eq cfg store t newJti rid now _ stored hv hf hr he]
            at hrot
          have hout : RotateOutcome.rotated
              (generateRefreshToken t.sub t.email newJti now cfg)
              t.sub t.email stored.familyId = .rotated nt u e fid := hrot
          injection hout with h1 h2 h3 h4
          refine ⟨stored, rfl, rfl, Option.not_isSome_iff_eq_none.mp hr, he,
            h1.symm, h2.symm, h3.symm, h4.symm, ?_⟩
          rw [rotate_live_eq cfg store t newJti rid now _ stored hv hf hr he,
            h1]

lemma findByTokenHash_cons (a : RefreshTokenRecord)
    (as : List RefreshTokenRecord) (h : Nat) :
    findByTokenHash (a :: as) h =
      if a.tokenHash == h then some a else findByTokenHash as h := by
  rw [findByTokenHash, findByTokenHash]
  cases ha : (a.tokenHash == h) <;> simp [List.find?_cons, ha]

lemma findByTokenHash_revokeTok (s : List RefreshTokenRecord) (h now : Nat)
    (rec : RefreshTokenRecord) (hf : findByTokenHash s h = some rec) :
    findByTokenHash (revokeTok s h now) h
      = some { rec with revokedAt := some now } := by
  induction s with
  | nil => cases hf
  | cons a as ih =>
    rw [findByTokenHash_cons] at hf
    by_cases ha : (a.tokenHash == h) = true
    · rw [if_pos ha] at hf
      rw [revokeTok, List.map_cons, if_pos ha, findByTokenHash_cons]
      have : ({ a with revokedAt := some now } :
          RefreshTokenRecord).tokenHash == h := ha
      rw [if_pos this, Option.some.inj hf]
    · rw [if_neg ha] at hf
      rw [revokeTok, List.map_cons, if_neg ha, findByTokenHash_cons,
        if_neg ha]
      exact ih hf

lemma findByTokenHash_append_left (s s₂ : List RefreshTokenRecord) (h : Nat)
    (rec : RefreshTokenRecord) (hf : findByTokenHash s h = some rec) :
    findByTokenHash (s ++ s₂) h = some rec := by
  rw [findByTokenHash, List.find?_append]
  rw [findByTokenHash] at hf
  rw [hf]
  rfl

lemma rotate_verify_fail_eq (cfg : Nat) (store : List RefreshTokenRecord)
    (t : RawRefreshToken) (newJti rid now : Nat)
    (hv : verifyRefreshToken t now = none) :
    rotateSession cfg store t newJti rid now =
      ⟨.unauthorized invalidTokenMsg, store⟩ := by
  simp [rotateSession, hv]

lemma rotate_nofind_eq (cfg : Nat) (store : List RefreshTokenRecord)
    (t : RawRefreshToken) (newJti rid now : Nat) (p : Nat × Nat)
    (hv : verifyRefreshToken t now = some p)
    (hf : findByTokenHash store (hashTok t) = none) :
    rotateSession cfg store t newJti rid now =
      ⟨.unauthorized invalidTokenMsg, store⟩ := by
  have hp := (verifyRefreshToken_some_inv t now p hv).1
  subst hp
  simp [rotateSession, hv, hf]

lemma rotate_expired_eq (cfg : Nat) (store : List RefreshTokenRecord)
    (t : RawRefreshToken) (newJti rid now : Nat) (p : Nat × Nat)
    (stored : RefreshTokenRecord)
    (hv : verifyRefreshToken t now = some p)
    (hf : findByTokenHash store (hashTok t) = some stored)
    (hr : ¬ stored.revokedAt.isSome = true)
    (he : stored.expiresAt < now) :
    rotateSession cfg store t newJti rid now =
      ⟨.unauthorized expiredTokenMsg, store⟩ := by
  have hp := (verifyRefreshToken_some_inv t now p hv).1
  subst hp
  simp [rotateSession, hv, hf, hr, he]

/-- C2 (amended): a failing `rotateSession` carries one of exactly two
messages — the generic `invalidTokenMsg` for a bad signature, an unknown
token hash, or a revoked/reused record, and the distinct `expiredTokenMsg`
precisely when the JWT verified, the record was found unrevoked, and its
stored `expiresAt` has passed.  The expired case is therefore
distinguishable from the response body, contrary to the claim as stated. -/
theorem rotate_failure_message_taxonomy
    (cfg : Nat) (store : List RefreshTokenRecord) (t : RawRefreshToken)
    (newJti rid now : Nat) (m : String)
    (hm : (rotateSession cfg store t newJti rid now).outcome
      = .unauthorized m) :
    (m = invalidTokenMsg ∨ m = expiredTokenMsg) ∧
    (m = expiredTokenMsg ↔
      (verifyRefreshToken t now).isSome = true ∧
      ∃ rec, findByTokenHash store (hashTok t) = some rec ∧
        rec.revokedAt = none ∧ rec.expiresAt < now) ∧
    invalidTokenMsg ≠ expiredTokenMsg := by
  have hmsg : invalidTokenMsg ≠ expiredTokenMsg := by decide
  cases hv : verifyRefreshToken t now with
  | none =>
    rw [rotate_verify_fail_eq cfg store t newJti rid now hv] at hm
    have hm' : invalidTokenMsg = m := RotateOutcome.unauthorized.inj hm
    subst hm'
    refine ⟨Or.inl rfl, iff_of_false hmsg ?_, hmsg⟩
    rintro ⟨hs, -⟩
    simp at hs
  | some p =>
    cases hf : findByTokenHash store (hashTok t) with
    | none =>
      rw [rotate_nofind_eq cfg store t newJti rid now p hv hf] at hm
      have hm' : invalidTokenMsg = m := RotateOutcome.unauthorized.inj hm
      subst hm'
      refine ⟨Or.inl rfl, iff_of_false hmsg ?_, hmsg⟩
      rintro ⟨-, rec, hrec, -⟩
      simp at hrec
    | some stored =>
      by_cases hr : stored.revokedAt.isSome = true
      · rw [rotate_revoked_eq cfg store t newJti rid now p stored hv hf hr]
          at hm
        have hm' : invalidTokenMsg = m := RotateOutcome.unauthorized.inj hm
        subst hm'
        refine ⟨Or.inl rfl, iff_of_false hmsg ?_, hmsg⟩
        rintro ⟨-, rec, hrec, hnone, -⟩
        rw [(Option.some.inj hrec).symm] at hnone
        rw [hnone] at hr
        simp at hr
      · by_cases he : stored.expiresAt < now
        · rw [rotate_expired_eq cfg store t newJti rid now p stored hv hf hr
            he] at hm
          have hm' : expiredTokenMsg = m := RotateOutcome.unauthorized.inj hm
          subst hm'
          exact ⟨Or.inr rfl,
            iff_of_true rfl
              ⟨rfl, stored, rfl, Option.not_isSome_iff_eq_none.mp hr, he⟩,
            hmsg⟩
        · rw [rotate_live_eq cfg store t newJti rid now p stored hv hf hr he]
            at hm
          exact absurd hm (by simp)

/-- Witness for C2 at a concrete failing input: an unknown token hash
carries the generic message. -/
theorem rotate_failure_message_taxonomy_witness :
    (invalidTokenMsg = invalidTokenMsg ∨ invalidTokenMsg = expiredTokenMsg) ∧
    (invalidTokenMsg = expiredTokenMsg ↔
      (verifyRefreshToken ⟨1, 0, 0, 50, true⟩ 10).isSome = true ∧
      ∃ rec, findByTokenHash [] (hashTok ⟨1, 0, 0, 50, true⟩) = some rec ∧
        rec.revokedAt = none ∧ rec.expiresAt < 10) ∧
    invalidTokenMsg ≠ expiredTokenMsg :=
  rotate_failure_message_taxonomy 100 [] ⟨1, 0, 0, 50, true⟩ 4 1 10
    invalidTokenMsg (by decide)

/-- Counterexample to C2 as stated: the expired-record branch answers with
a message different from the generic one, so the failing cases do not all
carry one and the same message. -/
theorem rotate_failure_message_cex :
    (rotateSession 100 [⟨0, hashTok ⟨1, 0, 0, 50, true⟩, 1, 7, 5, 0, none⟩]
        ⟨1, 0, 0, 50, true⟩ 4 1 10).outcome
      = .unauthorized expiredTokenMsg ∧
    (rotateSession 100 [] ⟨1, 0, 0, 50, true⟩ 4 1 10).outcome
      = .unauthorized invalidTokenMsg ∧
    expiredTokenMsg ≠ invalidTokenMsg := by decide

/-- C1 (amended): presenting a refresh token whose stored record is already
Revoked always yields Unauthorized, and — provided the raw JWT itself still
verifies (valid signature, embedded expiry not passed) — revokes every
record of the record's family, whatever its individual state.  After one
successful rotation the presented token's record is left Revoked, so a
second presentation of the same raw token falls under the first part.  When
the raw JWT no longer verifies the call still returns Unauthorized but the
family-wide revocation does not run (the verification failure short-circuits
before the reuse check). -/
theorem rotate_reuse_detection (cfg : Nat) (store : List RefreshTokenRecord)
    (t : RawRefreshToken) (newJti rid now : Nat) :
    (∀ rec, findByTokenHash store (hashTok t) = some rec →
      rec.revokedAt.isSome = true →
      (∃ m, (rotateSession cfg store t newJti rid now).outcome
        = .unauthorized m) ∧
      ((verifyRefreshToken t now).isSome = true →
        (rotateSession cfg store t newJti rid now).outcome
          = .unauthorized invalidTokenMsg ∧
        ∀ r ∈ (rotateSession cfg store t newJti rid now).store,
          r.familyId = rec.familyId → r.revokedAt.isSome = true)) ∧
    (∀ nt u e fid,
      (rotateSession cfg store t newJti rid now).outcome
        = .rotated nt u e fid →
      ∃ rec', findByTokenHash (rotateSession cfg store t newJti rid now).store
          (hashTok t) = some rec' ∧ rec'.revokedAt = some now) := by
  constructor
  · intro rec hf hrev
    constructor
    · cases hv : verifyRefreshToken t now with
      | none => exact ⟨invalidTokenMsg, by simp [rotateSession, hv]⟩
      | some p =>
        exact ⟨invalidTokenMsg,
          by rw [rotate_revoked_eq cfg store t newJti rid now p rec hv hf hrev]⟩
    · intro hvs
      obtain ⟨p, hv⟩ := Option.isSome_iff_exists.mp hvs
      rw [rotate_revoked_eq cfg store t newJti rid now p rec hv hf hrev]
      exact ⟨rfl, revokeAllByFamilyId_complete store rec.familyId now⟩
  · intro nt u e fid hrot
    obtain ⟨rec, _, hf, _, _, _, _, _, _, hstore⟩ :=
      rotate_success_inv cfg store t newJti rid now nt u e fid hrot
    refine ⟨{ rec with revokedAt := some now }, ?_, rfl⟩
    rw [hstore, createRecord]
    exact findByTokenHash_append_left _ _ _ _
      (findByTokenHash_revokeTok store (hashTok t) now rec hf)

/-- Witness for C1: a revoked record presented with a still-verifying raw
token returns the generic Unauthorized and leaves the whole family (here a
live sibling included) revoked. -/
theorem rotate_reuse_detection_witness :
    (rotateSession 100
        [⟨0, hashTok ⟨1, 0, 0, 50, true⟩, 1, 7, 50, 0, some 3⟩,
         ⟨1, 9999, 1, 7, 500, 0, none⟩]
        ⟨1, 0, 0, 50, true⟩ 4 2 10).outcome
      = .unauthorized invalidTokenMsg ∧
    ∀ r ∈ (rotateSession 100
        [⟨0, hashTok ⟨1, 0, 0, 50, true⟩, 1, 7, 50, 0, some 3⟩,
         ⟨1, 9999, 1, 7, 500, 0, none⟩]
        ⟨1, 0, 0, 50, true⟩ 4 2 10).store,
      r.familyId = 7 → r.revokedAt.isSome = true :=
  ((rotate_reuse_detection 100
      [⟨0, hashTok ⟨1, 0, 0, 50, true⟩, 1, 7, 50, 0, some 3⟩,
       ⟨1, 9999, 1, 7, 500, 0, none⟩]
      ⟨1, 0, 0, 50, true⟩ 4 2 10).1
    ⟨0, hashTok ⟨1, 0, 0, 50, true⟩, 1, 7, 50, 0, some 3⟩
    (by decide) (by decide)).2 (by decide)

/-- Counterexample to C1 as stated: the same revoked record presented with
a raw token whose own JWT expiry has passed yields Unauthorized without
revoking the family — the live sibling record survives. -/
theorem rotate_reuse_detection_cex :
    findByTokenHash
        [⟨0, hashTok ⟨1, 0, 0, 5, true⟩, 1, 7, 5, 0, some 3⟩,
         ⟨1, 9999, 1, 7, 500, 0, none⟩] (hashTok ⟨1, 0, 0, 5, true⟩)
      = some ⟨0, hashTok ⟨1, 0, 0, 5, true⟩, 1, 7, 5, 0, some 3⟩ ∧
    (rotateSession 100
        [⟨0, hashTok ⟨1, 0, 0, 5, true⟩, 1, 7, 5, 0, some 3⟩,
         ⟨1, 9999, 1, 7, 500, 0, none⟩]
        ⟨1, 0, 0, 5, true⟩ 4 2 10).outcome
      = .unauthorized invalidTokenMsg ∧
    ¬ (∀ r ∈ (rotateSession 100
        [⟨0, hashTok ⟨1, 0, 0, 5, true⟩, 1, 7, 5, 0, some 3⟩,
         ⟨1, 9999, 1, 7, 500, 0, none⟩]
        ⟨1, 0, 0, 5, true⟩ 4 2 10).store,
      r.familyId = 7 → r.revokedAt.isSome = true) := by decide

/-- C4: every successful rotation returns and persists the presented
record's `familyId` unchanged — so a chain of rotations descending from one
login shares one family — while `createSession` persists exactly the fresh
family id supplied by its `randomUUID()` call, which is new whenever the
generator avoids the family ids already in the store. -/
theorem familyId_lineage :
    (∀ cfg store t newJti rid now rec nt u e fid,
      findByTokenHash store (hashTok t) = some rec →
      (rotateSession cfg store t newJti rid now).outcome
        = .rotated nt u e fid →
      fid = rec.familyId ∧
      ∃ r ∈ (rotateSession cfg store t newJti rid now).store,
        r.tokenHash = hashTok nt ∧ r.familyId = rec.familyId) ∧
    (∀ cfg store uid em jti fid rid now,
      (createSession cfg store uid em jti fid rid now).familyId = fid ∧
      (∃ r ∈ (createSession cfg store uid em jti fid rid now).store,
        r.tokenHash
          = hashTok (createSession cfg store uid em jti fid rid now).refreshToken ∧
        r.familyId = fid) ∧
      ((∀ r ∈ store, r.familyId ≠ fid) →
        ∀ r ∈ store,
          r.familyId ≠ (createSession cfg store uid em jti fid rid now).familyId)) := by
  constructor
  · intro cfg store t newJti rid now rec nt u e fid hfind hrot
    obtain ⟨rec₀, _, hf₀, _, _, _, _, _, hfid, hstore⟩ :=
      rotate_success_inv cfg store t newJti rid now nt u e fid hrot
    rw [hfind] at hf₀
    have hrec : rec = rec₀ := Option.some.inj hf₀
    subst hrec
    refine ⟨hfid,
      ⟨⟨rid, hashTok nt, t.sub, rec.familyId, now + cfg, now, none⟩, ?_,
        rfl, rfl⟩⟩
    rw [hstore, createRecord]
    exact List.mem_append_right _ (List.mem_singleton.mpr rfl)
  · intro cfg store uid em jti fid rid now
    refine ⟨rfl,
      ⟨⟨rid, hashTok (generateRefreshToken uid em jti now cfg), uid, fid,
          now + cfg, now, none⟩, ?_, rfl, rfl⟩,
      fun h r hr => h r hr⟩
    rw [show (createSession cfg store uid em jti fid rid now).store =
        createRecord store rid uid
          (hashTok (generateRefreshToken uid em jti now cfg)) fid
          (now + cfg) now from rfl, createRecord]
    exact List.mem_append_right _ (List.mem_singleton.mpr rfl)

/-- Witness for C4: a concrete Live rotation persists the replacement under
the presented record's family id. -/
theorem familyId_lineage_witness :
    ∃ r ∈ (rotateSession 100
        [⟨0, hashTok ⟨1, 2, 3, 50, true⟩, 1, 7, 50, 0, none⟩]
        ⟨1, 2, 3, 50, true⟩ 4 1 10).store,
      r.tokenHash = hashTok ⟨1, 2, 4, 110, true⟩ ∧ r.familyId = 7 :=
  (familyId_lineage.1 100
    [⟨0, hashTok ⟨1, 2, 3, 50, true⟩, 1, 7, 50, 0, none⟩]
    ⟨1, 2, 3, 50, true⟩ 4 1 10
    ⟨0, hashTok ⟨1, 2, 3, 50, true⟩, 1, 7, 50, 0, none⟩
    ⟨1, 2, 4, 110, true⟩ 1 2 7 (by decide) (by decide)).2

/-- C10: a successful rotation stamps the replacement token and its
persisted record with expiry `now` plus the full configured refresh
lifetime — the formula does not mention the presented record's `expiresAt`,
so the window is not inherited but granted afresh at each rotation. -/
theorem rotate_fresh_expiry (cfg : Nat) (store : List RefreshTokenRecord)
    (t : RawRefreshToken) (newJti rid now : Nat) (nt : RawRefreshToken)
    (u e fid : Nat)
    (hrot : (rotateSession cfg store t newJti rid now).outcome
      = .rotated nt u e fid) :
    nt.exp = now + cfg ∧
    ∃ r ∈ (rotateSession cfg store t newJti rid now).store,
      r.tokenHash = hashTok nt ∧ r.expiresAt = now + cfg ∧
      r.revokedAt = none := by
  obtain ⟨rec, _, _, _, _, hnt, _, _, _, hstore⟩ :=
    rotate_success_inv cfg store t newJti rid now nt u e fid hrot
  constructor
  · rw [hnt]
    rfl
  · refine ⟨⟨rid, hashTok nt, t.sub, rec.familyId, now + cfg, now, none⟩,
      ?_, rfl, rfl, rfl⟩
    rw [hstore, createRecord]
    exact List.mem_append_right _ (List.mem_singleton.mpr rfl)

/-- Witness for C10: a concrete rotation at time 10 with lifetime 100 over
a record that had expiry 50 yields a replacement record expiring at 110. -/
theorem rotate_fresh_expiry_witness :
    (⟨1, 2, 4, 110, true⟩ : RawRefreshToken).exp = 10 + 100 ∧
    ∃ r ∈ (rotateSession 100
        [⟨0, hashTok ⟨1, 2, 3, 50, true⟩, 1, 7, 50, 0, none⟩]
        ⟨1, 2, 3, 50, true⟩ 4 1 10).store,
      r.tokenHash = hashTok ⟨1, 2, 4, 110, true⟩ ∧ r.expiresAt = 10 + 100 ∧
      r.revokedAt = none :=
  rotate_fresh_expiry 100
    [⟨0, hashTok ⟨1, 2, 3, 50, true⟩, 1, 7, 50, 0, none⟩]
    ⟨1, 2, 3, 50, true⟩ 4 1 10 ⟨1, 2, 4, 110, true⟩ 1 2 7 (by decide)

/-- C5: `requestPasswordReset` answers with the one constant message on
every path — matching account or not, and under a store or mail failure at
any of its collaborator calls (the try/catch swallows them) — and, being a
total function, never throws; in particular any two email inputs receive
identical response bodies. -/
theorem requestReset_unconditional :
    (∀ w email rawTok rid now f,
      (requestPasswordReset w email rawTok rid now f).1 = resetRequestMsg) ∧
    (∀ w email email2 rawTok rid now f rawTok2 rid2 now2 f2,
      (requestPasswordReset w email rawTok rid now f).1
        = (requestPasswordReset w email2 rawTok2 rid2 now2 f2).1) := by
  have h : ∀ w email rawTok rid now f,
      (requestPasswordReset w email rawTok rid now f).1 = resetRequestMsg := by
    intro w email rawTok rid now f
    obtain ⟨f1, f2, f3, f4⟩ := f
    cases hu : w.users.find? (fun u => u.email == email) <;>
      cases f1 <;> cases f2 <;> cases f3 <;> cases f4 <;>
        simp [requestPasswordReset, hu]
  exact ⟨h, fun w email email2 rawTok rid now f rawTok2 rid2 now2 f2 => by
    rw [h, h]⟩

/-- C6: `resetPassword` is not atomic.  At a world holding a valid reset
token for user 1 (who has one live refresh token), a failure of the
session-revocation call — after the password update and token consumption
succeeded — leaves the password changed to the new hash and the reset token
consumed while the refresh token is still unrevoked and no confirmation was
sent, and the error propagates: exactly the partial completion the claim
rules out. -/
theorem resetPassword_not_atomic :
    (resetPassword ⟨[⟨1, 10, 99⟩], [⟨0, hashResetToken 5, 1, 1000, 0, none⟩],
        [⟨0, 77, 1, 3, 500, 0, none⟩], [], []⟩ 5 42 10
        ⟨false, false, true, false⟩).1 = .error "store failure" ∧
    (resetPassword ⟨[⟨1, 10, 99⟩], [⟨0, hashResetToken 5, 1, 1000, 0, none⟩],
        [⟨0, 77, 1, 3, 500, 0, none⟩], [], []⟩ 5 42 10
        ⟨false, false, true, false⟩).2.users = [⟨1, 10, 42⟩] ∧
    (resetPassword ⟨[⟨1, 10, 99⟩], [⟨0, hashResetToken 5, 1, 1000, 0, none⟩],
        [⟨0, 77, 1, 3, 500, 0, none⟩], [], []⟩ 5 42 10
        ⟨false, false, true, false⟩).2.resetTokens
      = [⟨0, hashResetToken 5, 1, 1000, 0, some 10⟩] ∧
    (resetPassword ⟨[⟨1, 10, 99⟩], [⟨0, hashResetToken 5, 1, 1000, 0, none⟩],
        [⟨0, 77, 1, 3, 500, 0, none⟩], [], []⟩ 5 42 10
        ⟨false, false, true, false⟩).2.refreshTokens
      = [⟨0, 77, 1, 3, 500, 0, none⟩] ∧
    (resetPassword ⟨[⟨1, 10, 99⟩], [⟨0, hashResetToken 5, 1, 1000, 0, none⟩],
        [⟨0, 77, 1, 3, 500, 0, none⟩], [], []⟩ 5 42 10
        ⟨false, false, true, false⟩).2.sentConfirmations = [] := by decide

/-- C7: a reset token is single-use — after one fault-free successful
`resetPassword`, presenting the same raw token again (at any later time,
any fault assignment) fails with the generic reset failure, because the
record's `usedAt` was set on redemption and `findValidByTokenHash` only
returns simultaneously unexpired and unused records.  The hypothesis
`hids` is the database uniqueness of `tokenHash` (records agreeing on the
hash are the same row). -/
theorem resetToken_single_use
    (w : ResetWorld) (rawTok newHash now now2 newHash2 : Nat)
    (f2 : ResetFaults)
    (hids : ∀ r1 ∈ w.resetTokens, ∀ r2 ∈ w.resetTokens,
      r1.tokenHash = r2.tokenHash → r1.id = r2.id)
    (hok : (resetPassword w rawTok newHash now noResetFaults).1
      = .ok resetOkMsg) :
    (resetPassword (resetPassword w rawTok newHash now noResetFaults).2
        rawTok newHash2 now2 f2).1 = .error invalidResetMsg := by
  cases hfind : findValidByTokenHash w.resetTokens (hashResetToken rawTok)
      now with
  | none => simp [resetPassword, hfind] at hok
  | some rt =>
    cases huser : w.users.find? (fun u => u.id == rt.userId) with
    | none => simp [resetPassword, hfind, huser] at hok
    | some user =>
      have hw1 : (resetPassword w rawTok newHash now noResetFaults).2 =
          ResetWorld.mk
            (w.users.map (fun u =>
              if u.id == user.id then { u with passwordHash := newHash }
              else u))
            (markAsUsed w.resetTokens rt.id now)
            (revokeAllForUser w.refreshTokens user.id now)
            w.sentResetMails
            (w.sentConfirmations ++ [user.email]) := by
        simp [resetPassword, hfind, huser, noResetFaults]
      have h2 : findValidByTokenHash (markAsUsed w.resetTokens rt.id now)
          (hashResetToken rawTok) now2 = none := by
        rw [findValidByTokenHash]
        apply List.find?_eq_none.mpr
        intro x hx
        rw [markAsUsed, List.mem_map] at hx
        obtain ⟨r, hr, hmap⟩ := hx
        by_cases hid : (r.id == rt.id) = true
        · rw [if_pos hid] at hmap
          rw [← hmap]
          simp
        · rw [if_neg hid] at hmap
          subst hmap
          intro hp
          have hth : r.tokenHash = hashResetToken rawTok := by
            simp only [Bool.and_eq_true] at hp
            exact beq_iff_eq.mp hp.1.1
          have hfind' := hfind
          rw [findValidByTokenHash] at hfind'
          have hrtmem : rt ∈ w.resetTokens :=
            List.mem_of_find?_eq_some hfind'
          have hpred := List.find?_some hfind'
          have hrtth : rt.tokenHash = hashResetToken rawTok := by
            simp only [Bool.and_eq_true] at hpred
            exact beq_iff_eq.mp hpred.1.1
          have heq : r.id = rt.id :=
            hids r hr rt hrtmem (hth.trans hrtth.symm)
          exact hid (beq_iff_eq.mpr heq)
      rw [hw1]
      simp [resetPassword, h2]

/-- Witness for C7 at a concrete world with one valid reset token. -/
theorem resetToken_single_use_witness :
    (resetPassword (resetPassword
        ⟨[⟨1, 10, 99⟩], [⟨0, hashResetToken 5, 1, 1000, 0, none⟩], [], [], []⟩
        5 42 10 noResetFaults).2 5 43 20 noResetFaults).1
      = .error invalidResetMsg :=
  resetToken_single_use _ 5 42 10 20 43 noResetFaults (by decide) (by decide)

/-- Counterexample to C8 as stated: an expired (hence not Live) but
unrevoked record owned by the caller is nevertheless revoked. -/
theorem revokeSession_expired_cex :
    (⟨0, hashTok ⟨1, 0, 0, 5, true⟩, 7, 2, 5, 0, none⟩ :
        RefreshTokenRecord).expiresAt < 10 ∧
    revokeSession [⟨0, hashTok ⟨1, 0, 0, 5, true⟩, 7, 2, 5, 0, none⟩] 7
        ⟨1, 0, 0, 5, true⟩ 10
      = [⟨0, hashTok ⟨1, 0, 0, 5, true⟩, 7, 2, 5, 0, some 10⟩] := by decide
